import Mathlib

/-!
Shallow embedding of the Pomodoro timer state machine from `src/app/page.tsx`.

The React component `PomodoroTimer` keeps nine pieces of `useState` state
(`durations`, `showSettings`, `tempDurations`, `mode`, `timeLeft`,
`isRunning`, `isComplete`, `dailyTasks`, `selectedTaskId`); they are
gathered here into one record `PomodoroState`.  Every event handler of the
component becomes a function `PomodoroState → PomodoroState`, translated
line by line from the source.  The scheduler `useEffect` (lines 50-79) arms
a 1-second interval exactly when `isRunning && timeLeft > 0`; one firing of
that interval callback is the function `tick` below, guarded by the arming
condition.  The auxiliary `useEffect` at lines 46-48 (`setTimeLeft
(durations[mode])` whenever `durations` or `mode` changes) is observationally
redundant: every handler that changes `durations` or `mode`
(`handleModeChange`, `handleSaveDurations`) already sets `timeLeft` to that
same value, so it needs no separate transition.

JavaScript numbers holding whole seconds and minutes are modelled as `Int`
(so non-negativity of `timeLeft` is a theorem, not a typing artifact);
`Math.floor(x / 60)` on them is `Int.fdiv x 60`.
-/

/-- The union type `TimerMode = "focus" | "short-break" | "long-break"`
(page.tsx line 5); `shortBreak` stands for `"short-break"` and `longBreak`
for `"long-break"`. -/
inductive TimerMode where
  | focus
  | shortBreak
  | longBreak
deriving DecidableEq, Repr

/-- The `DailyTask` record type (page.tsx lines 7-12). -/
structure DailyTask where
  id : String
  name : String
  targetMinutes : Int
  completedMinutes : Int
deriving DecidableEq, Repr

/-- A `Record<TimerMode, number>` of whole seconds: one field per mode. -/
structure Durations where
  focus : Int
  shortBreak : Int
  longBreak : Int
deriving DecidableEq, Repr

/-- Index a `Durations` record by a mode (`durations[m]` in the source). -/
def Durations.get (d : Durations) (m : TimerMode) : Int :=
  match m with
  | TimerMode.focus => d.focus
  | TimerMode.shortBreak => d.shortBreak
  | TimerMode.longBreak => d.longBreak

/-- Update one entry of a `Durations` record
(the spread `{ ...prev, [m]: v }` in the source). -/
def Durations.set (d : Durations) (m : TimerMode) (v : Int) : Durations :=
  match m with
  | TimerMode.focus => { d with focus := v }
  | TimerMode.shortBreak => { d with shortBreak := v }
  | TimerMode.longBreak => { d with longBreak := v }

/-- `DEFAULT_DURATIONS` (page.tsx lines 14-18): focus `25*60`,
short break `5*60`, long break `15*60` seconds. -/
def DEFAULT_DURATIONS : Durations :=
  { focus := 25 * 60, shortBreak := 5 * 60, longBreak := 15 * 60 }

/-- `DEFAULT_TASKS` (page.tsx lines 20-29). -/
def DEFAULT_TASKS : List DailyTask :=
  [ { id := "learning", name := "Learning", targetMinutes := 240, completedMinutes := 0 },
    { id := "coding", name := "Python Coding / DSA", targetMinutes := 180, completedMinutes := 0 },
    { id := "aptitude", name := "Aptitude", targetMinutes := 60, completedMinutes := 0 } ]

/-- The combined `useState` state of the `PomodoroTimer` component
(page.tsx lines 32-44), in source order. -/
structure PomodoroState where
  durations : Durations
  showSettings : Bool
  tempDurations : Durations
  mode : TimerMode
  timeLeft : Int
  isRunning : Bool
  isComplete : Bool
  dailyTasks : List DailyTask
  selectedTaskId : String
deriving DecidableEq, Repr

/-- The initial state (page.tsx lines 32-44): active and pending tables both
`DEFAULT_DURATIONS`, settings closed, mode `focus`, `timeLeft =
durations.focus`, not running, not complete, default tasks, task
`"learning"` selected. -/
def initState : PomodoroState :=
  { durations := DEFAULT_DURATIONS
    showSettings := false
    tempDurations := DEFAULT_DURATIONS
    mode := TimerMode.focus
    timeLeft := DEFAULT_DURATIONS.focus
    isRunning := false
    isComplete := false
    dailyTasks := DEFAULT_TASKS
    selectedTaskId := "learning" }

/-- One firing of the scheduler's interval callback (page.tsx lines 50-79),
guarded by the arming condition of the `useEffect`: the interval exists only
while `isRunning && timeLeft > 0`.  Inside the callback: if `prev <= 1` this
is the terminal tick — stop, mark complete, and map over `dailyTasks`
adding `Math.floor(durations[mode] / 60)` minutes to the task whose id
equals `selectedTaskId`; otherwise decrement `prev` by one. -/
def tick (s : PomodoroState) : PomodoroState :=
  if s.isRunning = true ∧ 0 < s.timeLeft then
    if s.timeLeft ≤ 1 then
      { s with
        timeLeft := 0
        isRunning := false
        isComplete := true
        dailyTasks := s.dailyTasks.map (fun task =>
          if task.id = s.selectedTaskId then
            { task with completedMinutes :=
                task.completedMinutes + (s.durations.get s.mode).fdiv 60 }
          else task) }
    else { s with timeLeft := s.timeLeft - 1 }
  else s

/-- `handleModeChange` (page.tsx lines 81-86). -/
def handleModeChange (newMode : TimerMode) (s : PomodoroState) : PomodoroState :=
  { s with
    mode := newMode
    timeLeft := s.durations.get newMode
    isRunning := false
    isComplete := false }

/-- `handleStart` (page.tsx lines 88-91): unconditionally sets
`isRunning := true` and `isComplete := false`. -/
def handleStart (s : PomodoroState) : PomodoroState :=
  { s with isRunning := true, isComplete := false }

/-- `handlePause` (page.tsx lines 93-95). -/
def handlePause (s : PomodoroState) : PomodoroState :=
  { s with isRunning := false }

/-- `handleReset` (page.tsx lines 97-101). -/
def handleReset (s : PomodoroState) : PomodoroState :=
  { s with
    timeLeft := s.durations.get s.mode
    isRunning := false
    isComplete := false }

/-- `handleSaveDurations` (page.tsx lines 103-109): commit the pending table,
close the settings panel, and reinitialize the countdown for the current
mode from the newly active table. -/
def handleSaveDurations (s : PomodoroState) : PomodoroState :=
  { s with
    durations := s.tempDurations
    showSettings := false
    timeLeft := s.tempDurations.get s.mode
    isRunning := false
    isComplete := false }

/-- `handleResetDurations` (page.tsx lines 111-113): restore the pending
table to the defaults; the active table is untouched. -/
def handleResetDurations (s : PomodoroState) : PomodoroState :=
  { s with tempDurations := DEFAULT_DURATIONS }

/-- Model of the JavaScript builtin `Number.parseInt(value)` (radix
argument omitted) on base-10 and `0x`-prefixed base-16 numerals: skip
leading whitespace, read an optional sign, then the longest prefix of
digits of the radix (16 after a `0x`/`0X` prefix, 10 otherwise), ignoring
any trailing characters; `none` models the `NaN` result when no digit is
read. -/
def parseIntJS (value : String) : Option Int :=
  let dropped := value.toList.dropWhile (fun c =>
    c = ' ' ∨ c = '\t' ∨ c = '\n' ∨ c = '\r')
  let signed : Int × List Char :=
    match dropped with
    | '-' :: rest => (-1, rest)
    | '+' :: rest => (1, rest)
    | rest => (1, rest)
  let digitsOf : List Char → Option Nat := fun cs =>
    let ds := cs.takeWhile Char.isDigit
    if ds.isEmpty then none
    else some (ds.foldl (fun acc c => acc * 10 + (c.toNat - 48)) 0)
  let hexVal : Char → Nat := fun c =>
    if c.isDigit then c.toNat - 48
    else if 'a' ≤ c ∧ c ≤ 'f' then c.toNat - 87
    else c.toNat - 55
  let hexDigitsOf : List Char → Option Nat := fun cs =>
    let ds := cs.takeWhile (fun c =>
      c.isDigit ∨ ('a' ≤ c ∧ c ≤ 'f') ∨ ('A' ≤ c ∧ c ≤ 'F'))
    if ds.isEmpty then none
    else some (ds.foldl (fun acc c => acc * 16 + hexVal c) 0)
  let magnitude : Option Nat :=
    match signed.2 with
    | '0' :: 'x' :: rest => hexDigitsOf rest
    | '0' :: 'X' :: rest => hexDigitsOf rest
    | rest => digitsOf rest
  magnitude.map (fun n => signed.1 * (n : Int))

/-- `handleDurationChange` (page.tsx lines 115-121):
`const minutes = Number.parseInt(value) || 0` (so `NaN` becomes 0), then
store `Math.max(1, minutes) * 60` into the pending table for mode `m`. -/
def handleDurationChange (m : TimerMode) (value : String) (s : PomodoroState) :
    PomodoroState :=
  let minutes : Int := (parseIntJS value).getD 0
  { s with tempDurations := s.tempDurations.set m (max 1 minutes * 60) }

/-- `handleResetDailyTasks` (page.tsx lines 123-125). -/
def handleResetDailyTasks (s : PomodoroState) : PomodoroState :=
  { s with dailyTasks := DEFAULT_TASKS }

/-- The `onClick` of each task button (page.tsx line 322):
`setSelectedTaskId(task.id)`, with no existence check. -/
def selectTask (id : String) (s : PomodoroState) : PomodoroState :=
  { s with selectedTaskId := id }

/-- The `onClick` of the settings toggle (page.tsx lines 362-365): flip
`showSettings` and reseed the pending table from the active table. -/
def toggleSettings (s : PomodoroState) : PomodoroState :=
  { s with showSettings := !s.showSettings, tempDurations := s.durations }

/-- The operations a user (or the scheduler) can invoke on the component. -/
inductive Op where
  | tick
  | start
  | pause
  | reset
  | selectMode (m : TimerMode)
  | save
  | discardToDefault
  | editDuration (m : TimerMode) (value : String)
  | resetLedger
  | selectTask (id : String)
  | toggleSettings
deriving DecidableEq, Repr

/-- Dispatch an operation to its handler from the source. -/
def step (o : Op) (s : PomodoroState) : PomodoroState :=
  match o with
  | Op.tick => tick s
  | Op.start => handleStart s
  | Op.pause => handlePause s
  | Op.reset => handleReset s
  | Op.selectMode m => handleModeChange m s
  | Op.save => handleSaveDurations s
  | Op.discardToDefault => handleResetDurations s
  | Op.editDuration m v => handleDurationChange m v s
  | Op.resetLedger => handleResetDailyTasks s
  | Op.selectTask id => selectTask id s
  | Op.toggleSettings => toggleSettings s

/-- The states reachable from the initial state by any sequence of
operations. -/
inductive Reachable : PomodoroState → Prop where
  | init : Reachable initState
  | step (o : Op) {s : PomodoroState} : Reachable s → Reachable (step o s)

example : (step Op.tick (step Op.start initState)).timeLeft = 1499 := by decide

example : parseIntJS "-5" = some (-5) := by decide

example : parseIntJS "abc" = none := by decide

example : parseIntJS "0x1A" = some 26 := by decide

example : parseIntJS "  12.5s" = some 12 := by decide

/-! ### Basic lemmas about `Durations` and `tick` -/

theorem Durations.get_set_self (d : Durations) (m : TimerMode) (v : Int) :
    (d.set m v).get m = v := by
  cases m <;> rfl

theorem Durations.get_set_other (d : Durations) (m m' : TimerMode) (v : Int)
    (h : m' ≠ m) : (d.set m v).get m' = d.get m' := by
  cases m <;> cases m' <;> first | rfl | exact absurd rfl h

theorem tick_not_armed (s : PomodoroState)
    (h : ¬(s.isRunning = true ∧ 0 < s.timeLeft)) : tick s = s := by
  unfold tick
  rw [if_neg h]

theorem tick_decrement (s : PomodoroState) (h1 : s.isRunning = true)
    (h2 : 1 < s.timeLeft) :
    tick s = { s with timeLeft := s.timeLeft - 1 } := by
  unfold tick
  rw [if_pos (And.intro h1 (lt_trans one_pos h2)), if_neg (not_le.mpr h2)]

theorem tick_terminal (s : PomodoroState) (h1 : s.isRunning = true)
    (h2 : s.timeLeft = 1) :
    tick s = { s with
      timeLeft := 0
      isRunning := false
      isComplete := true
      dailyTasks := s.dailyTasks.map (fun task =>
        if task.id = s.selectedTaskId then
          { task with completedMinutes :=
              task.completedMinutes + (s.durations.get s.mode).fdiv 60 }
        else task) } := by
  unfold tick
  rw [if_pos (And.intro h1 (by rw [h2]; norm_num)), if_pos (le_of_eq h2)]

theorem tick_iter_run (s : PomodoroState) (h1 : s.isRunning = true) (k : Nat)
    (hk : (k : Int) < s.timeLeft) :
    tick^[k] s = { s with timeLeft := s.timeLeft - k } := by
  induction k with
  | zero =>
      simp only [Function.iterate_zero_apply, Nat.cast_zero, sub_zero]
  | succ n ih =>
      have hn : (n : Int) < s.timeLeft := by push_cast at hk ⊢; omega
      rw [Function.iterate_succ_apply', ih hn,
        tick_decrement { s with timeLeft := s.timeLeft - n } h1
          (by push_cast at hk ⊢; omega)]
      have harith : s.timeLeft - (n : Int) - 1 = s.timeLeft - ((n + 1 : Nat) : Int) := by
        push_cast
        ring
      rw [harith]

/-! ### The master invariant, preserved by every operation -/

/-- The conjunction of the state invariants that hold in every reachable
state: `timeLeft` stays between 0 and the active duration of the current
mode, `isRunning` and `isComplete` never hold together, and every entry of
the active and pending tables is a multiple of 60 that is at least 60. -/
def StateInv (s : PomodoroState) : Prop :=
  0 ≤ s.timeLeft ∧ s.timeLeft ≤ s.durations.get s.mode ∧
  ¬(s.isRunning = true ∧ s.isComplete = true) ∧
  (∀ m, 60 ≤ s.durations.get m ∧ 60 ∣ s.durations.get m) ∧
  (∀ m, 60 ≤ s.tempDurations.get m ∧ 60 ∣ s.tempDurations.get m)

theorem default_durations_inv (m : TimerMode) :
    60 ≤ DEFAULT_DURATIONS.get m ∧ 60 ∣ DEFAULT_DURATIONS.get m := by
  cases m with
  | focus => exact ⟨by norm_num [DEFAULT_DURATIONS, Durations.get],
      ⟨25, by norm_num [DEFAULT_DURATIONS, Durations.get]⟩⟩
  | shortBreak => exact ⟨by norm_num [DEFAULT_DURATIONS, Durations.get],
      ⟨5, by norm_num [DEFAULT_DURATIONS, Durations.get]⟩⟩
  | longBreak => exact ⟨by norm_num [DEFAULT_DURATIONS, Durations.get],
      ⟨15, by norm_num [DEFAULT_DURATIONS, Durations.get]⟩⟩

theorem inv_init : StateInv initState := by
  refine ⟨by norm_num [initState, DEFAULT_DURATIONS], ?_, by simp [initState], ?_, ?_⟩
  · norm_num [initState, DEFAULT_DURATIONS, Durations.get]
  · exact fun m => default_durations_inv m
  · exact fun m => default_durations_inv m

theorem clamp_times_sixty (n : Int) : 60 ≤ max 1 n * 60 ∧ 60 ∣ max 1 n * 60 := by
  constructor
  · have h : (1 : Int) ≤ max 1 n := le_max_left 1 n
    nlinarith
  · exact ⟨max 1 n, by ring⟩

theorem inv_step (o : Op) (s : PomodoroState) (h : StateInv s) : StateInv (step o s) := by
  obtain ⟨h0, h1, h2, h3, h4⟩ := h
  cases o with
  | tick =>
      show StateInv (tick s)
      by_cases hc : s.isRunning = true ∧ 0 < s.timeLeft
      · by_cases ht : s.timeLeft ≤ 1
        · rw [tick_terminal s hc.1 (by omega)]
          exact ⟨le_refl 0, le_trans (by norm_num) (h3 s.mode).1, by simp, h3, h4⟩
        · rw [tick_decrement s hc.1 (by omega)]
          refine ⟨?_, ?_, ?_, h3, h4⟩
          · show (0 : Int) ≤ s.timeLeft - 1
            omega
          · show s.timeLeft - 1 ≤ s.durations.get s.mode
            omega
          · show ¬(s.isRunning = true ∧ s.isComplete = true)
            exact h2
      · rw [tick_not_armed s hc]
        exact ⟨h0, h1, h2, h3, h4⟩
  | start =>
      exact ⟨h0, h1, by simp [step, handleStart], h3, h4⟩
  | pause =>
      exact ⟨h0, h1, by simp [step, handlePause], h3, h4⟩
  | reset =>
      exact ⟨le_trans (by norm_num) (h3 s.mode).1, le_refl _,
        by simp [step, handleReset], h3, h4⟩
  | selectMode m =>
      exact ⟨le_trans (by norm_num) (h3 m).1, le_refl _,
        by simp [step, handleModeChange], h3, h4⟩
  | save =>
      exact ⟨le_trans (by norm_num) (h4 s.mode).1, le_refl _,
        by simp [step, handleSaveDurations], h4, h4⟩
  | discardToDefault =>
      exact ⟨h0, h1, h2, h3, fun m => default_durations_inv m⟩
  | editDuration m v =>
      refine ⟨h0, h1, h2, h3, fun m' => ?_⟩
      show 60 ≤ (s.tempDurations.set m _).get m' ∧ 60 ∣ (s.tempDurations.set m _).get m'
      by_cases hm : m' = m
      · subst hm
        rw [Durations.get_set_self]
        exact clamp_times_sixty _
      · rw [Durations.get_set_other _ _ _ _ hm]
        exact h4 m'
  | resetLedger =>
      exact ⟨h0, h1, h2, h3, h4⟩
  | selectTask id =>
      exact ⟨h0, h1, h2, h3, h4⟩
  | toggleSettings =>
      exact ⟨h0, h1, h2, h3, h3⟩

theorem reachable_inv (s : PomodoroState) (h : Reachable s) : StateInv s := by
  induction h with
  | init => exact inv_init
  | step o hs ih => exact inv_step o _ ih

/-! ### Countdown exactness and the reachable-state invariants -/

/-- Claim C3: for every state and mode whose active duration `D` is at least
1 second, after `selectMode(m)` and `start()`, each of the first `D - 1`
ticks decrements `remaining` by exactly 1 and leaves `running = true`,
`complete = false`, and the `D`-th tick yields `remaining = 0`,
`running = false`, `complete = true`. -/
theorem countdown_exactness (s₀ : PomodoroState) (m : TimerMode)
    (hD : 1 ≤ s₀.durations.get m) :
    (∀ k : Nat, k + 1 < (s₀.durations.get m).toNat →
      (tick^[k + 1] (step Op.start (step (Op.selectMode m) s₀))).timeLeft
          = s₀.durations.get m - (k : Int) - 1 ∧
      (tick^[k + 1] (step Op.start (step (Op.selectMode m) s₀))).isRunning = true ∧
      (tick^[k + 1] (step Op.start (step (Op.selectMode m) s₀))).isComplete = false) ∧
    (tick^[(s₀.durations.get m).toNat]
        (step Op.start (step (Op.selectMode m) s₀))).timeLeft = 0 ∧
    (tick^[(s₀.durations.get m).toNat]
        (step Op.start (step (Op.selectMode m) s₀))).isRunning = false ∧
    (tick^[(s₀.durations.get m).toNat]
        (step Op.start (step (Op.selectMode m) s₀))).isComplete = true := by
  have hs1run : (step Op.start (step (Op.selectMode m) s₀)).isRunning = true := rfl
  have hs1tl : (step Op.start (step (Op.selectMode m) s₀)).timeLeft
      = s₀.durations.get m := rfl
  constructor
  · intro k hk
    have hcast : ((k + 1 : Nat) : Int)
        < (step Op.start (step (Op.selectMode m) s₀)).timeLeft := by
      rw [hs1tl]
      omega
    rw [tick_iter_run _ hs1run (k + 1) hcast]
    refine ⟨?_, rfl, rfl⟩
    show (step Op.start (step (Op.selectMode m) s₀)).timeLeft - ((k + 1 : Nat) : Int)
        = s₀.durations.get m - (k : Int) - 1
    rw [hs1tl]
    push_cast
    ring
  · have hpos : 1 ≤ (s₀.durations.get m).toNat := by omega
    have hsplit : (s₀.durations.get m).toNat
        = ((s₀.durations.get m).toNat - 1) + 1 := by omega
    have hprev : (((s₀.durations.get m).toNat - 1 : Nat) : Int)
        < (step Op.start (step (Op.selectMode m) s₀)).timeLeft := by
      rw [hs1tl]
      omega
    rw [hsplit, Function.iterate_succ_apply',
      tick_iter_run _ hs1run ((s₀.durations.get m).toNat - 1) hprev]
    have hone : ({ step Op.start (step (Op.selectMode m) s₀) with
        timeLeft := (step Op.start (step (Op.selectMode m) s₀)).timeLeft
          - (((s₀.durations.get m).toNat - 1 : Nat) : Int) } : PomodoroState).timeLeft
        = 1 := by
      show (step Op.start (step (Op.selectMode m) s₀)).timeLeft
          - (((s₀.durations.get m).toNat - 1 : Nat) : Int) = 1
      rw [hs1tl]
      omega
    rw [tick_terminal _ rfl hone]
    exact ⟨rfl, rfl, rfl⟩

/-- Witness for C3 at the initial state and the focus mode
(duration 1500 seconds): the 7th tick leaves 1493 seconds, and the 1500th
tick finishes the countdown. -/
theorem countdown_exactness_witness :
    (1 : Int) ≤ initState.durations.get TimerMode.focus ∧
    (tick^[7] (step Op.start (step (Op.selectMode TimerMode.focus) initState))).timeLeft
      = 1493 ∧
    (tick^[1500] (step Op.start (step (Op.selectMode TimerMode.focus) initState))).timeLeft
      = 0 ∧
    (tick^[1500] (step Op.start (step (Op.selectMode TimerMode.focus) initState))).isRunning
      = false ∧
    (tick^[1500] (step Op.start (step (Op.selectMode TimerMode.focus) initState))).isComplete
      = true := by
  have h := countdown_exactness initState TimerMode.focus (by decide)
  refine ⟨by decide, ?_, h.2.1, h.2.2.1, h.2.2.2⟩
  have h7 := (h.1 6 (by decide)).1
  exact h7.trans (by decide)

/-- Claim C6: in every reachable state, `remaining` lies between 0 and the
active duration of the current mode, `running` and `complete` never hold
together, `complete` can only become true through the terminal tick of a
countdown, and `reset` and `selectMode` always clear it to false. -/
theorem timer_state_invariants (s : PomodoroState) (h : Reachable s) :
    (0 ≤ s.timeLeft ∧ s.timeLeft ≤ s.durations.get s.mode) ∧
    ¬(s.isRunning = true ∧ s.isComplete = true) ∧
    (∀ o : Op, (step o s).isComplete = true →
      s.isComplete = true ∨ (o = Op.tick ∧ s.isRunning = true ∧ s.timeLeft = 1)) ∧
    (step Op.reset s).isComplete = false ∧
    (∀ m, (step (Op.selectMode m) s).isComplete = false) := by
  obtain ⟨h0, h1, h2, h3, h4⟩ := reachable_inv s h
  refine ⟨⟨h0, h1⟩, h2, ?_, rfl, fun m => rfl⟩
  intro o ho
  cases o with
  | tick =>
      by_cases hc : s.isRunning = true ∧ 0 < s.timeLeft
      · by_cases ht : s.timeLeft ≤ 1
        · exact Or.inr ⟨rfl, hc.1, by omega⟩
        · rw [show step Op.tick s = tick s from rfl,
            tick_decrement s hc.1 (by omega)] at ho
          exact Or.inl ho
      · rw [show step Op.tick s = tick s from rfl, tick_not_armed s hc] at ho
        exact Or.inl ho
  | start => exact absurd ho (by simp [step, handleStart])
  | pause => exact Or.inl ho
  | reset => exact absurd ho (by simp [step, handleReset])
  | selectMode m => exact absurd ho (by simp [step, handleModeChange])
  | save => exact absurd ho (by simp [step, handleSaveDurations])
  | discardToDefault => exact Or.inl ho
  | editDuration m v => exact Or.inl ho
  | resetLedger => exact Or.inl ho
  | selectTask id => exact Or.inl ho
  | toggleSettings => exact Or.inl ho

/-- Witness for C6 at the (reachable) initial state. -/
theorem timer_state_invariants_witness :
    (0 ≤ initState.timeLeft ∧
      initState.timeLeft ≤ initState.durations.get initState.mode) ∧
    ¬(initState.isRunning = true ∧ initState.isComplete = true) ∧
    (step Op.reset initState).isComplete = false := by
  have h := timer_state_invariants initState Reachable.init
  exact ⟨h.1, h.2.1, h.2.2.2.1⟩

/-- Claim C10: in every reachable state, every entry of the active and of
the pending duration table is a multiple of 60 that is at least 60, and
consequently a countdown restarted by `selectMode`, `reset` or `save`
begins at a multiple of 60 seconds. -/
theorem whole_minute_durations (s : PomodoroState) (h : Reachable s) :
    (∀ m, 60 ≤ s.durations.get m ∧ 60 ∣ s.durations.get m) ∧
    (∀ m, 60 ≤ s.tempDurations.get m ∧ 60 ∣ s.tempDurations.get m) ∧
    (∀ m, 60 ∣ (step (Op.selectMode m) s).timeLeft ∧
      60 ≤ (step (Op.selectMode m) s).timeLeft) ∧
    60 ∣ (step Op.reset s).timeLeft ∧
    60 ∣ (step Op.save s).timeLeft := by
  obtain ⟨h0, h1, h2, h3, h4⟩ := reachable_inv s h
  exact ⟨h3, h4, fun m => ⟨(h3 m).2, (h3 m).1⟩, (h3 s.mode).2, (h4 s.mode).2⟩

/-- Witness for C10 at the (reachable) initial state. -/
theorem whole_minute_durations_witness :
    (60 ≤ initState.durations.get TimerMode.focus ∧
      60 ∣ initState.durations.get TimerMode.focus) ∧
    (60 ≤ initState.tempDurations.get TimerMode.shortBreak ∧
      60 ∣ initState.tempDurations.get TimerMode.shortBreak) ∧
    60 ∣ (step Op.reset initState).timeLeft := by
  have h := whole_minute_durations initState Reachable.init
  exact ⟨h.1 TimerMode.focus, h.2.1 TimerMode.shortBreak, h.2.2.2.1⟩

/-- Claim C9: the scheduler arms a tick only while `running = true` and
`remaining > 0`; starting from a state with `remaining = 0` yields
`running = true, complete = false, remaining = 0`, and no number of ticks
changes the state (in particular no completion credit is ever issued). -/
theorem start_at_zero_never_ticks (s : PomodoroState) (h : s.timeLeft = 0) :
    (step Op.start s).isRunning = true ∧
    (step Op.start s).isComplete = false ∧
    (step Op.start s).timeLeft = 0 ∧
    (∀ n : Nat, tick^[n] (step Op.start s) = step Op.start s) ∧
    (∀ n : Nat, (tick^[n] (step Op.start s)).dailyTasks = s.dailyTasks) ∧
    (∀ t : PomodoroState, ¬(t.isRunning = true ∧ 0 < t.timeLeft) →
      step Op.tick t = t) := by
  have hzero : (step Op.start s).timeLeft = 0 := h
  have hfix : tick (step Op.start s) = step Op.start s := by
    apply tick_not_armed
    intro hc
    rw [hzero] at hc
    exact absurd hc.2 (lt_irrefl 0)
  have hiter : ∀ n : Nat, tick^[n] (step Op.start s) = step Op.start s := by
    intro n
    induction n with
    | zero => rfl
    | succ k ih => rw [Function.iterate_succ_apply', ih, hfix]
  refine ⟨rfl, rfl, hzero, hiter, ?_, fun t ht => tick_not_armed t ht⟩
  intro n
  rw [hiter n]
  rfl

/-- Witness for C9 at the initial state with its countdown already at
zero. -/
theorem start_at_zero_never_ticks_witness :
    (step Op.start { initState with timeLeft := 0 }).isRunning = true ∧
    (step Op.start { initState with timeLeft := 0 }).isComplete = false ∧
    (step Op.start { initState with timeLeft := 0 }).timeLeft = 0 ∧
    tick^[5] (step Op.start { initState with timeLeft := 0 })
      = step Op.start { initState with timeLeft := 0 } := by
  have h := start_at_zero_never_ticks { initState with timeLeft := 0 } rfl
  exact ⟨h.1, h.2.1, h.2.2.1, h.2.2.2.1 5⟩

/-! ### Duration editing, settings commit, and the completion credit -/

/-- Claim C7: `editDuration(m, rawInput)` stores `max(1, parsedMinutes) * 60`
seconds into the pending table for `m` (an unparseable input counting as 0
minutes, hence 60 seconds stored), and touches nothing else: the other
pending entries, the active table, and the whole timer state are
unchanged. -/
theorem duration_edit_clamp (s : PomodoroState) (m : TimerMode) (v : String) :
    (step (Op.editDuration m v) s).tempDurations.get m =
      (match parseIntJS v with
       | some n => max 1 n * 60
       | none => 60) ∧
    (∀ m', m' ≠ m →
      (step (Op.editDuration m v) s).tempDurations.get m'
        = s.tempDurations.get m') ∧
    (step (Op.editDuration m v) s).durations = s.durations ∧
    (step (Op.editDuration m v) s).mode = s.mode ∧
    (step (Op.editDuration m v) s).timeLeft = s.timeLeft ∧
    (step (Op.editDuration m v) s).isRunning = s.isRunning ∧
    (step (Op.editDuration m v) s).isComplete = s.isComplete ∧
    (step (Op.editDuration m v) s).dailyTasks = s.dailyTasks := by
  refine ⟨?_, fun m' hm => ?_, rfl, rfl, rfl, rfl, rfl, rfl⟩
  · show (s.tempDurations.set m (max 1 ((parseIntJS v).getD 0) * 60)).get m = _
    rw [Durations.get_set_self]
    cases hp : parseIntJS v with
    | none => norm_num [Option.getD]
    | some n => rfl
  · show (s.tempDurations.set m (max 1 ((parseIntJS v).getD 0) * 60)).get m' = _
    exact Durations.get_set_other _ _ _ _ hm

/-- Witness for C7: `editDuration(focus, "-5")` and
`editDuration(focus, "abc")` both store exactly 60 seconds, and editing one
mode leaves the other pending entries alone. -/
theorem duration_edit_clamp_witness :
    (step (Op.editDuration TimerMode.focus "-5") initState).tempDurations.get
      TimerMode.focus = 60 ∧
    (step (Op.editDuration TimerMode.focus "abc") initState).tempDurations.get
      TimerMode.focus = 60 ∧
    (step (Op.editDuration TimerMode.shortBreak "-5") initState).tempDurations.get
      TimerMode.longBreak = 900 := by
  have h1 := (duration_edit_clamp initState TimerMode.focus "-5").1
  have h2 := (duration_edit_clamp initState TimerMode.focus "abc").1
  have h3 := (duration_edit_clamp initState TimerMode.shortBreak "-5").2.1
    TimerMode.longBreak (by decide)
  exact ⟨h1.trans (by decide), h2.trans (by decide), h3.trans (by decide)⟩

/-- Claim C8: `discardToDefault()` changes only the pending table (back to
the defaults), leaving the active table and the entire timer state
unchanged; `save()` copies the pending table into the active table and
simultaneously sets `remaining` to the new active duration of the current
mode, clears `running` and `complete`, and leaves the mode unchanged. -/
theorem save_commits_discard_does_not (s : PomodoroState) :
    ((step Op.discardToDefault s).tempDurations = DEFAULT_DURATIONS ∧
     (step Op.discardToDefault s).durations = s.durations ∧
     (step Op.discardToDefault s).mode = s.mode ∧
     (step Op.discardToDefault s).timeLeft = s.timeLeft ∧
     (step Op.discardToDefault s).isRunning = s.isRunning ∧
     (step Op.discardToDefault s).isComplete = s.isComplete ∧
     (step Op.discardToDefault s).dailyTasks = s.dailyTasks ∧
     (step Op.discardToDefault s).selectedTaskId = s.selectedTaskId) ∧
    ((step Op.save s).durations = s.tempDurations ∧
     (step Op.save s).timeLeft = s.tempDurations.get s.mode ∧
     (step Op.save s).isRunning = false ∧
     (step Op.save s).isComplete = false ∧
     (step Op.save s).mode = s.mode ∧
     (step Op.save s).tempDurations = s.tempDurations ∧
     (step Op.save s).dailyTasks = s.dailyTasks ∧
     (step Op.save s).selectedTaskId = s.selectedTaskId) := by
  exact ⟨⟨rfl, rfl, rfl, rfl, rfl, rfl, rfl, rfl⟩,
    ⟨rfl, rfl, rfl, rfl, rfl, rfl, rfl, rfl⟩⟩

/-- Map a function that fixes every element of a list over that list and
nothing changes. -/
theorem map_id_of_fixed {α : Type} (l : List α) (f : α → α)
    (h : ∀ x ∈ l, f x = x) : l.map f = l := by
  induction l with
  | nil => rfl
  | cons a t ih =>
      rw [List.map_cons, h a (by simp), ih (fun x hx => h x (by simp [hx]))]

/-- Claim C5: when a countdown reaches zero, the task whose id equals the
selected id gains exactly `floor(activeDurations[mode] / 60)` minutes
(uncapped) and every other task is unchanged; when no task has the selected
id, the whole ledger is unchanged and no error is raised. -/
theorem apply_completion_arithmetic (s : PomodoroState)
    (h1 : s.isRunning = true) (h2 : s.timeLeft = 1) :
    (step Op.tick s).dailyTasks.length = s.dailyTasks.length ∧
    (∀ (i : Nat) (t : DailyTask), s.dailyTasks[i]? = some t →
      (step Op.tick s).dailyTasks[i]? =
        some (if t.id = s.selectedTaskId then
          { t with completedMinutes :=
              t.completedMinutes + (s.durations.get s.mode).fdiv 60 }
        else t)) ∧
    ((∀ t ∈ s.dailyTasks, t.id ≠ s.selectedTaskId) →
      (step Op.tick s).dailyTasks = s.dailyTasks) := by
  have ht := tick_terminal s h1 h2
  rw [show step Op.tick s = tick s from rfl, ht]
  refine ⟨List.length_map _ _, ?_, ?_⟩
  · intro i t hti
    show (s.dailyTasks.map _)[i]? = _
    rw [List.getElem?_map, hti]
    rfl
  · intro hall
    show s.dailyTasks.map _ = s.dailyTasks
    apply map_id_of_fixed
    intro t htmem
    rw [if_neg (hall t htmem)]

/-- The focus-mode state one second before completion, used to witness the
completion-credit claims. -/
def terminalFocusState : PomodoroState :=
  { initState with isRunning := true, timeLeft := 1 }

/-- Witness for C5: a 1500-second focus completion with task `"learning"`
selected yields `completedMinutes = 25` for `"learning"` and leaves
`"coding"` and `"aptitude"` unchanged. -/
theorem apply_completion_arithmetic_witness :
    (step Op.tick terminalFocusState).dailyTasks[0]?
      = some ⟨"learning", "Learning", 240, 25⟩ ∧
    (step Op.tick terminalFocusState).dailyTasks[1]?
      = some ⟨"coding", "Python Coding / DSA", 180, 0⟩ ∧
    (step Op.tick terminalFocusState).dailyTasks[2]?
      = some ⟨"aptitude", "Aptitude", 60, 0⟩ := by
  have h := (apply_completion_arithmetic terminalFocusState rfl rfl).2.1
  refine ⟨?_, ?_, ?_⟩
  · exact (h 0 ⟨"learning", "Learning", 240, 0⟩ (by decide)).trans (by decide)
  · exact (h 1 ⟨"coding", "Python Coding / DSA", 180, 0⟩ (by decide)).trans (by decide)
  · exact (h 2 ⟨"aptitude", "Aptitude", 60, 0⟩ (by decide)).trans (by decide)

/-- Claim C4: of all operations other than the explicit ledger reset, only a
tick fired with `running = true` and `remaining = 1` (the terminal tick of a
countdown) can change the task ledger, and that tick also stops the timer —
so the credit is applied at most once per countdown reaching zero, and never
by `reset`, `selectMode`, `start`, `pause`, or a duration save. -/
theorem exactly_once_credit (o : Op) (s : PomodoroState)
    (hop : o ≠ Op.resetLedger)
    (hch : (step o s).dailyTasks ≠ s.dailyTasks) :
    o = Op.tick ∧ s.isRunning = true ∧ s.timeLeft = 1 ∧
    (step o s).isRunning = false := by
  cases o with
  | tick =>
      by_cases hc : s.isRunning = true ∧ 0 < s.timeLeft
      · by_cases ht : s.timeLeft ≤ 1
        · have hone : s.timeLeft = 1 := by omega
          refine ⟨rfl, hc.1, hone, ?_⟩
          show (tick s).isRunning = false
          rw [tick_terminal s hc.1 hone]
        · exfalso
          apply hch
          show (tick s).dailyTasks = s.dailyTasks
          rw [tick_decrement s hc.1 (by omega)]
      · exfalso
        apply hch
        show (tick s).dailyTasks = s.dailyTasks
        rw [tick_not_armed s hc]
  | start => exact absurd rfl hch
  | pause => exact absurd rfl hch
  | reset => exact absurd rfl hch
  | selectMode m => exact absurd rfl hch
  | save => exact absurd rfl hch
  | discardToDefault => exact absurd rfl hch
  | editDuration m v => exact absurd rfl hch
  | resetLedger => exact absurd rfl hop
  | selectTask id => exact absurd rfl hch
  | toggleSettings => exact absurd rfl hch

/-- Witness for C4: the terminal focus tick does change the ledger, and it
is indeed a tick from `running = true, remaining = 1` that stops the
timer. -/
theorem exactly_once_credit_witness :
    (step Op.tick terminalFocusState).dailyTasks
      ≠ terminalFocusState.dailyTasks ∧
    terminalFocusState.isRunning = true ∧
    terminalFocusState.timeLeft = 1 ∧
    (step Op.tick terminalFocusState).isRunning = false := by
  have h := exactly_once_credit Op.tick terminalFocusState (by decide) (by decide)
  exact ⟨by decide, h.2.1, h.2.2.1, h.2.2.2⟩

/-! ### Break-mode completions credit the ledger; start is not rejected
while complete -/

/-- Counterexample to claim C1: run the short-break countdown of the initial
state to its end (selectMode short-break, start, 300 ticks).  The countdown
reaches zero in short-break mode, yet the selected task `"learning"` gains 5
completed minutes — the ledger is not left unchanged. -/
theorem break_credit_counterexample :
    (tick^[300] (step Op.start (step (Op.selectMode TimerMode.shortBreak)
        initState))).mode = TimerMode.shortBreak ∧
    (tick^[300] (step Op.start (step (Op.selectMode TimerMode.shortBreak)
        initState))).isComplete = true ∧
    (tick^[300] (step Op.start (step (Op.selectMode TimerMode.shortBreak)
        initState))).timeLeft = 0 ∧
    (tick^[300] (step Op.start (step (Op.selectMode TimerMode.shortBreak)
        initState))).dailyTasks[0]?
      = some ⟨"learning", "Learning", 240, 5⟩ ∧
    (step Op.start (step (Op.selectMode TimerMode.shortBreak)
        initState)).dailyTasks[0]?
      = some ⟨"learning", "Learning", 240, 0⟩ := by
  have h299 := tick_iter_run
    (step Op.start (step (Op.selectMode TimerMode.shortBreak) initState))
    rfl 299 (by decide)
  have h300 : tick^[300] (step Op.start (step (Op.selectMode TimerMode.shortBreak)
        initState))
      = tick (tick^[299] (step Op.start (step (Op.selectMode TimerMode.shortBreak)
        initState))) := by
    rw [show (300 : Nat) = 299 + 1 from rfl, Function.iterate_succ_apply']
  rw [h300, h299]
  decide

/-- Amendment of claim C1 (the code credits completions of every mode, not
only focus): a countdown reaching zero in a non-focus mode adds
`floor(activeDurations[mode] / 60)` minutes to the task carrying the
selected id. -/
theorem credit_in_break_modes (s : PomodoroState) (i : Nat) (t : DailyTask)
    (h1 : s.isRunning = true) (h2 : s.timeLeft = 1)
    (_h3 : s.mode ≠ TimerMode.focus)
    (ht : s.dailyTasks[i]? = some t) (hsel : t.id = s.selectedTaskId) :
    ((step Op.tick s).dailyTasks[i]?).map DailyTask.completedMinutes
      = some (t.completedMinutes + (s.durations.get s.mode).fdiv 60) := by
  rw [show step Op.tick s = tick s from rfl, tick_terminal s h1 h2]
  show ((s.dailyTasks.map _)[i]?).map _ = _
  rw [List.getElem?_map, ht]
  show some (DailyTask.completedMinutes
    (if t.id = s.selectedTaskId then _ else t)) = _
  rw [if_pos hsel]

/-- The short-break state one second before completion, used to witness the
amended C1. -/
def breakTerminalState : PomodoroState :=
  { initState with
    mode := TimerMode.shortBreak
    isRunning := true
    timeLeft := 1 }

/-- Witness for the amended C1: a short-break completion credits
`floor(300 / 60) = 5` minutes to the selected task `"learning"`. -/
theorem credit_in_break_modes_witness :
    ((step Op.tick breakTerminalState).dailyTasks[0]?).map
      DailyTask.completedMinutes = some 5 := by
  have h := credit_in_break_modes breakTerminalState 0
    ⟨"learning", "Learning", 240, 0⟩ (by decide) (by decide) (by decide)
    (by decide) rfl
  exact h.trans (by decide)

/-- Counterexample to claim C2: run the focus countdown of the initial state
to completion (start, 1500 ticks); the resulting state has
`complete = true`, yet `start()` is not a no-op on it — it flips `running`
to true and `complete` to false. -/
theorem start_while_complete_counterexample :
    (tick^[1500] (step Op.start initState)).isComplete = true ∧
    (tick^[1500] (step Op.start initState)).isRunning = false ∧
    step Op.start (tick^[1500] (step Op.start initState))
      ≠ tick^[1500] (step Op.start initState) ∧
    (step Op.start (tick^[1500] (step Op.start initState))).isRunning = true ∧
    (step Op.start (tick^[1500] (step Op.start initState))).isComplete
      = false := by
  have h1499 := tick_iter_run (step Op.start initState) rfl 1499 (by decide)
  have h1500 : tick^[1500] (step Op.start initState)
      = tick (tick^[1499] (step Op.start initState)) := by
    rw [show (1500 : Nat) = 1499 + 1 from rfl, Function.iterate_succ_apply']
  rw [h1500, h1499]
  decide

/-- Amendment of claim C2 (the code does not reject a start while
`complete = true`; the Start button is disabled only while running): calling
`start()` from a completed state changes the state — it sets
`running := true` and clears `complete` — while leaving `remaining`, the
mode, the duration tables and the ledger unchanged. -/
theorem start_from_complete_not_ignored (s : PomodoroState)
    (h : s.isComplete = true) :
    (step Op.start s).isRunning = true ∧
    (step Op.start s).isComplete = false ∧
    step Op.start s ≠ s ∧
    (step Op.start s).timeLeft = s.timeLeft ∧
    (step Op.start s).mode = s.mode ∧
    (step Op.start s).durations = s.durations ∧
    (step Op.start s).tempDurations = s.tempDurations ∧
    (step Op.start s).dailyTasks = s.dailyTasks := by
  refine ⟨rfl, rfl, ?_, rfl, rfl, rfl, rfl, rfl⟩
  intro he
  have hfalse : s.isComplete = false := by
    rw [← he]
    rfl
  rw [h] at hfalse
  exact Bool.noConfusion hfalse

/-- Witness for the amended C2 at a completed copy of the initial state. -/
theorem start_from_complete_not_ignored_witness :
    (step Op.start { initState with isComplete := true }).isRunning = true ∧
    (step Op.start { initState with isComplete := true }).isComplete = false ∧
    step Op.start { initState with isComplete := true }
      ≠ { initState with isComplete := true } := by
  have h := start_from_complete_not_ignored
    { initState with isComplete := true } rfl
  exact ⟨h.1, h.2.1, h.2.2.1⟩
